import Mathlib

/-
  Verification development for the vector-search repository.

  Source of truth: src/query.js (main server: POST /upload, POST /query,
  cosineSimilarity) and src/unnamed/part_000 (an earlier variant of the same
  server whose /query handler lacks the null guard on bestMatch).

  Modelling decisions, stated once here:
  * JavaScript numbers are modelled as exact rationals extended with NaN and
    the two signed infinities (type JSNum).  Rounding, overflow and negative
    zero are outside the model; on the code paths the claims exercise, sums
    of squares and dot products of ordinary finite inputs stay finite and
    only the division by a zero denominator produces a non-finite value.
  * Math.sqrt is modelled as a parameter function from rationals to
    rationals, since square roots of rationals are irrational in general.
    The only fact about Math.sqrt a claim needs is that the square root of
    zero is zero, taken as a hypothesis where used.
  * The HTTP handlers are modelled after body parsing and after the query
    embedding call, with the two external calls (feature extraction for
    /upload, chat completion for /query) passed in as Except values; a
    thrown exception from either corresponds to the error case, which the
    sources catch and turn into a 500 response.
-/

namespace VectorSearch

/-- Model of a JavaScript number as used by the similarity pipeline:
an exact rational, NaN, or a signed infinity. -/
inductive JSNum
  | nan
  | negInf
  | posInf
  | fin (q : ℚ)
deriving DecidableEq, Repr

/-- JavaScript addition on the JSNum model. -/
def jsAdd : JSNum → JSNum → JSNum
  | .nan, _ => .nan
  | _, .nan => .nan
  | .posInf, .negInf => .nan
  | .negInf, .posInf => .nan
  | .posInf, _ => .posInf
  | _, .posInf => .posInf
  | .negInf, _ => .negInf
  | _, .negInf => .negInf
  | .fin p, .fin q => .fin (p + q)

/-- JavaScript multiplication on the JSNum model. -/
def jsMul : JSNum → JSNum → JSNum
  | .nan, _ => .nan
  | _, .nan => .nan
  | .posInf, .posInf => .posInf
  | .posInf, .negInf => .negInf
  | .negInf, .posInf => .negInf
  | .negInf, .negInf => .posInf
  | .posInf, .fin q => if q = 0 then .nan else if q < 0 then .negInf else .posInf
  | .fin q, .posInf => if q = 0 then .nan else if q < 0 then .negInf else .posInf
  | .negInf, .fin q => if q = 0 then .nan else if q < 0 then .posInf else .negInf
  | .fin q, .negInf => if q = 0 then .nan else if q < 0 then .posInf else .negInf
  | .fin p, .fin q => .fin (p * q)

/-- JavaScript division on the JSNum model (zero over zero is NaN, a nonzero
finite value over zero is a signed infinity). -/
def jsDiv : JSNum → JSNum → JSNum
  | .nan, _ => .nan
  | _, .nan => .nan
  | .posInf, .posInf => .nan
  | .posInf, .negInf => .nan
  | .negInf, .posInf => .nan
  | .negInf, .negInf => .nan
  | .posInf, .fin q => if q < 0 then .negInf else .posInf
  | .negInf, .fin q => if q < 0 then .posInf else .negInf
  | .fin _, .posInf => .fin 0
  | .fin _, .negInf => .fin 0
  | .fin p, .fin q =>
      if q = 0 then (if p = 0 then .nan else if p < 0 then .negInf else .posInf)
      else .fin (p / q)

/-- The JavaScript strict greater-than comparison: NaN compares false
against everything, on either side. -/
def jsGt : JSNum → JSNum → Bool
  | .nan, _ => false
  | _, .nan => false
  | .posInf, .posInf => false
  | .posInf, .negInf => true
  | .posInf, .fin _ => true
  | .negInf, _ => false
  | .fin _, .posInf => false
  | .fin _, .negInf => true
  | .fin p, .fin q => decide (q < p)

/-- Indexing a JavaScript array of numbers: an out-of-range index yields
undefined, which behaves as NaN in every arithmetic context used here. -/
def jsGet (v : List ℚ) (i : ℕ) : JSNum :=
  match v[i]? with
  | some q => .fin q
  | none => .nan

/-- Accumulator loop of the reduce in cosineSimilarity, line 175 of
src/query.js: vecA.reduce of sum + a * vecB[i] with starting value 0,
iterating over the elements of vecA with their indices. -/
def dotAux (vecB : List ℚ) : JSNum → ℕ → List ℚ → JSNum
  | sum, _, [] => sum
  | sum, i, a :: as => dotAux vecB (jsAdd sum (jsMul (.fin a) (jsGet vecB i))) (i + 1) as

/-- The dotProduct of cosineSimilarity (src/query.js line 175). -/
def dotProduct (vecA vecB : List ℚ) : JSNum :=
  dotAux vecB (.fin 0) 0 vecA

/-- The sum of squares reduce inside the magnitude computations
(src/query.js lines 176 and 177). -/
def sumSquares (v : List ℚ) : ℚ :=
  v.foldl (fun sum val => sum + val * val) 0

/-- Euclidean magnitude of a vector, src/query.js lines 176 and 177,
with Math.sqrt passed in as the parameter sqrt. -/
def magnitude (sqrt : ℚ → ℚ) (vec : List ℚ) : ℚ :=
  sqrt (sumSquares vec)

/-- cosineSimilarity, src/query.js lines 174 to 179: dot product divided by
the product of the two magnitudes.  There is no length check in the source;
the reduce iterates over the indices of vecA only. -/
def cosineSimilarity (sqrt : ℚ → ℚ) (vecA vecB : List ℚ) : JSNum :=
  jsDiv (dotProduct vecA vecB)
    (jsMul (.fin (magnitude sqrt vecA)) (.fin (magnitude sqrt vecB)))

/-- A stored document, after the mongoose model Embedding of src/query.js
lines 39 to 45: a document name, an embedding vector, and the extracted
text content. -/
structure Embedding where
  documentName : String
  embedding : List ℚ
  content : String
deriving DecidableEq, Repr

/-- One iteration of the forEach scan in the /query handler, src/query.js
lines 139 to 145: the state is the pair of bestMatch and
highestSimilarity, updated when similarity > highestSimilarity. -/
def scanStep (sim : Embedding → JSNum) (st : Option Embedding × JSNum)
    (doc : Embedding) : Option Embedding × JSNum :=
  if jsGt (sim doc) st.2 then (some doc, sim doc) else st

/-- The whole linear scan of src/query.js lines 136 to 145: bestMatch
starts as null and highestSimilarity starts as negative infinity. -/
def nearestScan (sim : Embedding → JSNum) (docs : List Embedding) :
    Option Embedding × JSNum :=
  docs.foldl (scanStep sim) (none, JSNum.negInf)

/-- The retrieval scan of the /query handler specialised to the similarity
actually computed, src/query.js line 140: cosineSimilarity of the query
embedding against each stored embedding. -/
def retrieveScan (sqrt : ℚ → ℚ) (queryEmbedding : List ℚ)
    (docs : List Embedding) : Option Embedding × JSNum :=
  nearestScan (fun doc => cosineSimilarity sqrt queryEmbedding doc.embedding) docs

/-- Responses of the /query handler of src/query.js: the match response of
lines 159 to 163, the no-match response of line 165, and the 500 response
of line 169 produced by the catch block. -/
inductive QueryResponse
  | matchFound (documentName : String) (response : String) (similarity : JSNum)
  | noMatch (similarity : JSNum)
  | serverError
deriving DecidableEq, Repr

/-- The /query handler of src/query.js lines 134 to 170, after the query
embedding has been obtained.  The chat completion call is the parameter
generate; when it throws, control reaches the catch block and the response
is the 500 error, discarding the match already found. -/
def queryHandler (sqrt : ℚ → ℚ) (queryEmbedding : List ℚ)
    (docs : List Embedding) (generate : Except Unit String) : QueryResponse :=
  match retrieveScan sqrt queryEmbedding docs with
  | (some bestMatch, highestSimilarity) =>
      match generate with
      | .ok answer => .matchFound bestMatch.documentName answer highestSimilarity
      | .error _ => .serverError
  | (none, highestSimilarity) => .noMatch highestSimilarity

/-- Responses of the /query handler of src/unnamed/part_000: the
unconditional match response of lines 103 to 106, and the 500 response of
line 109 produced by the catch block. -/
inductive QueryResponseV0
  | closestMatch (documentName : String) (similarity : JSNum)
  | serverError
deriving DecidableEq, Repr

/-- The /query handler of the earlier variant src/unnamed/part_000, lines
90 to 110: it reads bestMatch.documentName without checking bestMatch for
null, so when the scan selects nothing the property access throws a
TypeError, the catch block runs, and the response is the 500 error. -/
def queryHandlerV0 (sqrt : ℚ → ℚ) (queryEmbedding : List ℚ)
    (docs : List Embedding) : QueryResponseV0 :=
  match retrieveScan sqrt queryEmbedding docs with
  | (some bestMatch, highestSimilarity) =>
      .closestMatch bestMatch.documentName highestSimilarity
  | (none, _) => .serverError

/-- Responses of the /upload handler of src/query.js: the 201 response of
line 105 and the 500 response of line 114 produced by the catch block. -/
inductive UploadResponse
  | saved
  | errorProcessing
deriving DecidableEq, Repr

/-- The /upload handler of src/query.js lines 91 to 115, after text
extraction, together with the store it updates.  The feature extraction
call is the parameter featureExtraction; when it throws, control reaches
the catch block, the save on line 103 is never executed, and the store is
returned unchanged.  On success a new document holding the first returned
embedding is saved; a mongoose save of a new model instance always inserts
a new document, so the store grows by exactly one record with no
uniqueness check on documentName and no check on the embedding length. -/
def uploadHandler (documentName content : String)
    (featureExtraction : Except Unit (List (List ℚ)))
    (store : List Embedding) : UploadResponse × List Embedding :=
  match featureExtraction with
  | .error _ => (.errorProcessing, store)
  | .ok embeddings =>
      (.saved, store ++ [{ documentName := documentName
                           embedding := embeddings.headD []
                           content := content }])

/-- Pure rational dot product of two vectors, pairing entries positionally
and ignoring the tail of the longer one; used to describe what dotProduct
computes when no index goes out of range. -/
def dotQ : List ℚ → List ℚ → ℚ
  | [], _ => 0
  | _ :: _, [] => 0
  | a :: as, b :: bs => a * b + dotQ as bs

/-- First witness record: embedding along the first axis. -/
def docA : Embedding := ⟨"a", [(1 : ℚ), 0], "contentA"⟩

/-- Second witness record: embedding along the second axis. -/
def docB : Embedding := ⟨"b", [(0 : ℚ), 1], "contentB"⟩

/-- Witness record with the all-zero embedding, whose similarity against
any query is NaN because its magnitude is zero. -/
def zeroDoc : Embedding := ⟨"zero", [(0 : ℚ), 0], "contentZ"⟩

/-! Small rewriting lemmas for evaluating the model on concrete inputs and
for the case analyses below. -/

@[simp] lemma jsAdd_fin (p q : ℚ) : jsAdd (.fin p) (.fin q) = .fin (p + q) := rfl

@[simp] lemma jsAdd_nan_left (y : JSNum) : jsAdd .nan y = .nan := by cases y <;> rfl

@[simp] lemma jsAdd_nan_right (x : JSNum) : jsAdd x .nan = .nan := by cases x <;> rfl

@[simp] lemma jsMul_fin (p q : ℚ) : jsMul (.fin p) (.fin q) = .fin (p * q) := rfl

@[simp] lemma jsMul_nan_right (x : JSNum) : jsMul x .nan = .nan := by cases x <;> rfl

@[simp] lemma jsGt_fin_fin (p q : ℚ) : jsGt (.fin p) (.fin q) = decide (q < p) := rfl

@[simp] lemma jsGt_fin_negInf (p : ℚ) : jsGt (.fin p) .negInf = true := rfl

@[simp] lemma jsGt_nan_left (y : JSNum) : jsGt .nan y = false := by cases y <;> rfl

@[simp] lemma jsGt_nan_right (x : JSNum) : jsGt x .nan = false := by cases x <;> rfl

@[simp] lemma jsDiv_fin_fin (p q : ℚ) :
    jsDiv (.fin p) (.fin q) =
      if q = 0 then (if p = 0 then .nan else if p < 0 then .negInf else .posInf)
      else .fin (p / q) := rfl

@[simp] lemma jsDiv_nan_left (y : JSNum) : jsDiv .nan y = .nan := by cases y <;> rfl

@[simp] lemma jsGet_cons_zero (q : ℚ) (v : List ℚ) : jsGet (q :: v) 0 = .fin q := by
  simp [jsGet]

@[simp] lemma jsGet_cons_succ (q : ℚ) (v : List ℚ) (i : ℕ) :
    jsGet (q :: v) (i + 1) = jsGet v i := by
  simp [jsGet]

@[simp] lemma jsGet_nil (i : ℕ) : jsGet [] i = .nan := by
  simp [jsGet]

@[simp] lemma dotAux_nil (b : List ℚ) (s : JSNum) (i : ℕ) : dotAux b s i [] = s := rfl

@[simp] lemma dotAux_cons (b : List ℚ) (s : JSNum) (i : ℕ) (a : ℚ) (as : List ℚ) :
    dotAux b s i (a :: as) = dotAux b (jsAdd s (jsMul (.fin a) (jsGet b i))) (i + 1) as := rfl

/-! Order facts about the JavaScript strict comparison. -/

lemma jsGt_ne_nan_left {x y : JSNum} (h : jsGt x y = true) : x ≠ JSNum.nan := by
  intro hx; subst hx; simp at h

lemma jsGt_ne_nan_right {x y : JSNum} (h : jsGt x y = true) : y ≠ JSNum.nan := by
  intro hy; subst hy; simp at h

lemma jsGt_irrefl (x : JSNum) : jsGt x x = false := by
  cases x <;> simp [jsGt]

lemma jsGt_trans {x y z : JSNum} (hxy : jsGt x y = true) (hyz : jsGt y z = true) :
    jsGt x z = true := by
  cases x <;> cases y <;> cases z <;> simp_all [jsGt]
  exact lt_trans hyz hxy

lemma jsGt_asymm {x y : JSNum} (h : jsGt x y = true) : jsGt y x = false := by
  cases hyx : jsGt y x
  · rfl
  · have h2 := jsGt_trans h hyx
    rw [jsGt_irrefl] at h2
    simp at h2

lemma not_jsGt_cases {x y : JSNum} (hx : x ≠ JSNum.nan) (hy : y ≠ JSNum.nan)
    (h : jsGt x y = false) : x = y ∨ jsGt y x = true := by
  cases x with
  | nan => exact absurd rfl hx
  | negInf =>
      cases y with
      | nan => exact absurd rfl hy
      | negInf => exact Or.inl rfl
      | posInf => exact Or.inr rfl
      | fin q => exact Or.inr rfl
  | posInf =>
      cases y with
      | nan => exact absurd rfl hy
      | negInf => simp [jsGt] at h
      | posInf => exact Or.inl rfl
      | fin q => simp [jsGt] at h
  | fin p =>
      cases y with
      | nan => exact absurd rfl hy
      | negInf => simp [jsGt] at h
      | posInf => exact Or.inr rfl
      | fin q =>
          simp only [jsGt_fin_fin, decide_eq_false_iff_not] at h
          rcases lt_or_eq_of_le (not_lt.mp h) with hlt | heq
          · exact Or.inr (by simp [hlt])
          · exact Or.inl (by rw [heq])

/-! Behaviour of the linear scan of src/query.js lines 136 to 145. -/

lemma scan_stays_some (sim : Embedding → JSNum) (docs : List Embedding) :
    ∀ (x : Embedding) (h : JSNum),
      ∃ y s, docs.foldl (scanStep sim) (some x, h) = (some y, s) := by
  induction docs with
  | nil => exact fun x h => ⟨x, h, rfl⟩
  | cons d ds ih =>
      intro x h
      rw [List.foldl_cons]
      by_cases hd : jsGt (sim d) h = true
      · rw [show scanStep sim (some x, h) d = (some d, sim d) by simp [scanStep, hd]]
        exact ih d (sim d)
      · rw [show scanStep sim (some x, h) d = (some x, h) by simp [scanStep, hd]]
        exact ih x h

lemma scan_foldl_none (sim : Embedding → JSNum) (docs : List Embedding) :
    ∀ h : JSNum, (docs.foldl (scanStep sim) (none, h)).1 = none →
      docs.foldl (scanStep sim) (none, h) = (none, h) := by
  induction docs with
  | nil => intro h _; rfl
  | cons d ds ih =>
      intro h hn
      rw [List.foldl_cons] at hn ⊢
      by_cases hd : jsGt (sim d) h = true
      · rw [show scanStep sim (none, h) d = (some d, sim d) by simp [scanStep, hd]] at hn
        obtain ⟨y, s, hy⟩ := scan_stays_some sim ds d (sim d)
        rw [hy] at hn
        simp at hn
      · rw [show scanStep sim (none, h) d = (none, h) by simp [scanStep, hd]] at hn ⊢
        exact ih h hn

lemma scan_no_winner (sim : Embedding → JSNum) (docs : List Embedding) :
    ∀ st : Option Embedding × JSNum,
      (∀ d ∈ docs, jsGt (sim d) st.2 = false) →
      docs.foldl (scanStep sim) st = st := by
  induction docs with
  | nil => intro st _; rfl
  | cons d ds ih =>
      intro st hall
      rw [List.foldl_cons]
      rw [show scanStep sim st d = st by simp [scanStep, hall d (by simp)]]
      exact ih st fun e he => hall e (by simp [he])

lemma scan_foldl_spec (sim : Embedding → JSNum) (docs : List Embedding) :
    ∀ (b : Option Embedding) (h : JSNum), h ≠ JSNum.nan →
    ∀ (r : Embedding) (s : JSNum),
    docs.foldl (scanStep sim) (b, h) = (some r, s) →
    (b = some r ∧ s = h ∧ ∀ d ∈ docs, jsGt (sim d) h = false) ∨
    (s = sim r ∧ jsGt (sim r) h = true ∧
      (∀ d ∈ docs, jsGt (sim d) s = false) ∧
      ∃ l1 l2, docs = l1 ++ r :: l2 ∧
        ∀ d ∈ l1, sim d = JSNum.nan ∨ jsGt s (sim d) = true) := by
  induction docs with
  | nil =>
      intro b h hh r s hfold
      simp only [List.foldl_nil] at hfold
      injection hfold with h1 h2
      exact Or.inl ⟨h1, h2.symm, by simp⟩
  | cons d ds ih =>
      intro b h hh r s hfold
      rw [List.foldl_cons] at hfold
      by_cases hd : jsGt (sim d) h = true
      · rw [show scanStep sim (b, h) d = (some d, sim d) by simp [scanStep, hd]] at hfold
        have hdnan : sim d ≠ JSNum.nan := jsGt_ne_nan_left hd
        rcases ih (some d) (sim d) hdnan r s hfold with
          ⟨hb, hs, hall⟩ | ⟨hs, hgt, hall, l1, l2, hdec, hpre⟩
        · injection hb with hbd
          subst hbd
          right
          refine ⟨hs, hd, ?_, [], ds, rfl, by simp⟩
          intro d2 hd2
          rcases List.mem_cons.mp hd2 with rfl | hmem
          · rw [hs, jsGt_irrefl]
          · exact hs ▸ hall d2 hmem
        · right
          have hsd : jsGt s (sim d) = true := by rw [hs]; exact hgt
          refine ⟨hs, jsGt_trans hgt hd, ?_, d :: l1, l2, by simp [hdec], ?_⟩
          · intro d2 hd2
            rcases List.mem_cons.mp hd2 with rfl | hmem
            · exact jsGt_asymm hsd
            · exact hall d2 hmem
          · intro d2 hd2
            rcases List.mem_cons.mp hd2 with rfl | hmem
            · exact Or.inr hsd
            · exact hpre d2 hmem
      · have hdf : jsGt (sim d) h = false := by
          cases hcase : jsGt (sim d) h
          · rfl
          · exact absurd hcase hd
        rw [show scanStep sim (b, h) d = (b, h) by simp [scanStep, hdf]] at hfold
        rcases ih b h hh r s hfold with
          ⟨hb, hs, hall⟩ | ⟨hs, hgt, hall, l1, l2, hdec, hpre⟩
        · left
          refine ⟨hb, hs, ?_⟩
          intro d2 hd2
          rcases List.mem_cons.mp hd2 with rfl | hmem
          · exact hdf
          · exact hall d2 hmem
        · right
          have hsh : jsGt s h = true := by rw [hs]; exact hgt
          have hhead : sim d = JSNum.nan ∨ jsGt s (sim d) = true := by
            by_cases hdn : sim d = JSNum.nan
            · exact Or.inl hdn
            · rcases not_jsGt_cases hdn hh hdf with heq | hgt2
              · exact Or.inr (by rw [heq]; exact hsh)
              · exact Or.inr (jsGt_trans hsh hgt2)
          refine ⟨hs, hgt, ?_, d :: l1, l2, by simp [hdec], ?_⟩
          · intro d2 hd2
            rcases List.mem_cons.mp hd2 with rfl | hmem
            · rcases hhead with hdn | hsd
              · rw [hdn, jsGt_nan_left]
              · exact jsGt_asymm hsd
            · exact hall d2 hmem
          · intro d2 hd2
            rcases List.mem_cons.mp hd2 with rfl | hmem
            · exact hhead
            · exact hpre d2 hmem

/-! Arithmetic facts about the sum of squares and the dot product. -/

lemma sumSquares_acc (v : List ℚ) :
    ∀ s : ℚ, v.foldl (fun sum val => sum + val * val) s
      = s + v.foldl (fun sum val => sum + val * val) 0 := by
  induction v with
  | nil => intro s; simp
  | cons x xs ih =>
      intro s
      rw [List.foldl_cons, List.foldl_cons, ih (s + x * x), ih (0 + x * x)]
      ring

lemma sumSquares_cons (x : ℚ) (v : List ℚ) :
    sumSquares (x :: v) = x * x + sumSquares v := by
  rw [sumSquares, List.foldl_cons, sumSquares_acc, sumSquares]
  ring

lemma sumSquares_nonneg (v : List ℚ) : 0 ≤ sumSquares v := by
  induction v with
  | nil => simp [sumSquares]
  | cons x xs ih =>
      rw [sumSquares_cons]
      have hx := mul_self_nonneg x
      linarith

lemma sumSquares_eq_zero (v : List ℚ) : sumSquares v = 0 → ∀ x ∈ v, x = 0 := by
  induction v with
  | nil => intro _ x hx; exact absurd hx (List.not_mem_nil x)
  | cons x xs ih =>
      intro h y hy
      rw [sumSquares_cons] at h
      have h1 : 0 ≤ x * x := mul_self_nonneg x
      have h2 : 0 ≤ sumSquares xs := sumSquares_nonneg xs
      have hx : x * x = 0 := by linarith
      have hxs : sumSquares xs = 0 := by linarith
      rcases List.mem_cons.mp hy with rfl | hmem
      · exact mul_self_eq_zero.mp hx
      · exact ih hxs y hmem

lemma dotAux_nan (b : List ℚ) : ∀ (a : List ℚ) (i : ℕ), dotAux b .nan i a = .nan := by
  intro a
  induction a with
  | nil => intro i; rfl
  | cons x xs ih =>
      intro i
      rw [dotAux_cons, jsAdd_nan_left]
      exact ih (i + 1)

lemma dotAux_fin (b : List ℚ) :
    ∀ (a : List ℚ) (i : ℕ) (s : ℚ), i + a.length ≤ b.length →
      dotAux b (.fin s) i a = .fin (s + dotQ a (b.drop i)) := by
  intro a
  induction a with
  | nil => intro i s _; simp [dotQ]
  | cons x xs ih =>
      intro i s hlen
      have hi : i < b.length := by simp only [List.length_cons] at hlen; omega
      have hget : jsGet b i = .fin b[i] := by simp [jsGet, List.getElem?_eq_getElem hi]
      rw [dotAux_cons, hget, jsMul_fin, jsAdd_fin,
        ih (i + 1) (s + x * b[i]) (by simp only [List.length_cons] at hlen; omega),
        List.drop_eq_getElem_cons hi]
      congr 1
      simp only [dotQ]
      ring

lemma dotProduct_eq_dotQ (a b : List ℚ) (h : a.length ≤ b.length) :
    dotProduct a b = .fin (dotQ a b) := by
  rw [dotProduct, dotAux_fin b a 0 0 (by omega)]
  simp

lemma dotAux_overflow (b : List ℚ) :
    ∀ (a : List ℚ) (i : ℕ) (s : ℚ), i ≤ b.length → b.length < i + a.length →
      dotAux b (.fin s) i a = .nan := by
  intro a
  induction a with
  | nil =>
      intro i s h1 h2
      simp only [List.length_nil] at h2
      exact absurd h2 (by omega)
  | cons x xs ih =>
      intro i s h1 h2
      rcases lt_or_eq_of_le h1 with hi | hi
      · have hget : jsGet b i = .fin b[i] := by simp [jsGet, List.getElem?_eq_getElem hi]
        rw [dotAux_cons, hget, jsMul_fin, jsAdd_fin]
        exact ih (i + 1) (s + x * b[i]) (by omega)
          (by simp only [List.length_cons] at h2; omega)
      · have hget : jsGet b i = .nan := by
          simp [jsGet, List.getElem?_eq_none (le_of_eq hi.symm)]
        rw [dotAux_cons, hget, jsMul_nan_right, jsAdd_nan_right]
        exact dotAux_nan b xs (i + 1)

lemma dotProduct_nan (a b : List ℚ) (h : b.length < a.length) :
    dotProduct a b = .nan :=
  dotAux_overflow b a 0 0 (Nat.zero_le _) (by omega)

lemma dotQ_comm (a : List ℚ) : ∀ b, dotQ a b = dotQ b a := by
  induction a with
  | nil => intro b; cases b <;> simp [dotQ]
  | cons x xs ih =>
      intro b
      cases b with
      | nil => simp [dotQ]
      | cons y ys => simp [dotQ, ih ys, mul_comm]

lemma dotAux_take (b : List ℚ) (n : ℕ) :
    ∀ (a : List ℚ) (i : ℕ) (acc : JSNum), i + a.length ≤ n →
      dotAux (b.take n) acc i a = dotAux b acc i a := by
  intro a
  induction a with
  | nil => intro i acc _; rfl
  | cons x xs ih =>
      intro i acc hlen
      have hi : i < n := by simp only [List.length_cons] at hlen; omega
      have hget : jsGet (b.take n) i = jsGet b i := by
        simp [jsGet, List.getElem?_take_of_lt hi]
      rw [dotAux_cons, dotAux_cons, hget]
      exact ih (i + 1) _ (by simp only [List.length_cons] at hlen; omega)

lemma dotProduct_take (a b : List ℚ) :
    dotProduct a b = dotProduct a (b.take a.length) :=
  (dotAux_take b a.length a 0 (.fin 0) (by omega)).symm

lemma dotAux_zero (b : List ℚ) :
    ∀ (a : List ℚ) (i : ℕ) (s : ℚ), i + a.length ≤ b.length →
      ((∀ x ∈ a, x = 0) ∨ (∀ x ∈ b, x = 0)) →
      dotAux b (.fin s) i a = .fin s := by
  intro a
  induction a with
  | nil => intro i s _ _; rfl
  | cons x xs ih =>
      intro i s hlen hz
      have hi : i < b.length := by simp only [List.length_cons] at hlen; omega
      have hget : jsGet b i = .fin b[i] := by simp [jsGet, List.getElem?_eq_getElem hi]
      have hzero : x * b[i] = 0 := by
        rcases hz with hza | hzb
        · rw [hza x (by simp), zero_mul]
        · rw [hzb b[i] (List.getElem_mem hi), mul_zero]
      rw [dotAux_cons, hget, jsMul_fin, jsAdd_fin, hzero, add_zero]
      refine ih (i + 1) s (by simp only [List.length_cons] at hlen; omega) ?_
      rcases hz with hza | hzb
      · exact Or.inl fun y hy => hza y (by simp [hy])
      · exact Or.inr hzb

lemma cosineSimilarity_zero_norm (sqrt : ℚ → ℚ) (a b : List ℚ)
    (hsqrt : sqrt 0 = 0) (hlen : a.length = b.length)
    (hz : sumSquares a = 0 ∨ sumSquares b = 0) :
    cosineSimilarity sqrt a b = JSNum.nan := by
  have hdot : dotProduct a b = .fin 0 := by
    refine dotAux_zero b a 0 0 (by omega) ?_
    rcases hz with ha | hb
    · exact Or.inl (sumSquares_eq_zero a ha)
    · exact Or.inr (sumSquares_eq_zero b hb)
  have hden : magnitude sqrt a * magnitude sqrt b = 0 := by
    rcases hz with ha | hb
    · simp only [magnitude]
      rw [ha, hsqrt, zero_mul]
    · simp only [magnitude]
      rw [hb, hsqrt, mul_zero]
  simp only [cosineSimilarity]
  rw [hdot, jsMul_fin, hden]
  simp

/-! The claims. -/

/-- C1: when the /query scan of src/query.js selects a best match, the
selected record attains the returned score, that score is not NaN, no
scanned record compares strictly greater than the score under the
JavaScript comparison, and every record earlier in scan order either has
NaN similarity or compares strictly below the score, so a record tying
the score exactly can only sit later in scan order: the first record
reaching the highest similarity is the one selected. -/
theorem c1_retrieval_selects_highest (sqrt : ℚ → ℚ) (queryEmbedding : List ℚ)
    (docs : List Embedding) (r : Embedding) (s : JSNum)
    (hscan : retrieveScan sqrt queryEmbedding docs = (some r, s)) :
    s = cosineSimilarity sqrt queryEmbedding r.embedding ∧
    s ≠ JSNum.nan ∧
    (∀ d ∈ docs, jsGt (cosineSimilarity sqrt queryEmbedding d.embedding) s = false) ∧
    ∃ l1 l2, docs = l1 ++ r :: l2 ∧
      ∀ d ∈ l1, cosineSimilarity sqrt queryEmbedding d.embedding = JSNum.nan ∨
        jsGt s (cosineSimilarity sqrt queryEmbedding d.embedding) = true := by
  have hspec := scan_foldl_spec
    (fun doc => cosineSimilarity sqrt queryEmbedding doc.embedding)
    docs none JSNum.negInf (by simp) r s hscan
  rcases hspec with ⟨hb, _, _⟩ | ⟨hs, hgt, hall, l1, l2, hdec, hpre⟩
  · simp at hb
  · refine ⟨hs, ?_, hall, l1, l2, hdec, hpre⟩
    rw [hs]
    exact jsGt_ne_nan_left hgt

/-- Witness for c1_retrieval_selects_highest on a concrete two-record
store where the first record matches the query exactly. -/
theorem c1_retrieval_selects_highest_witness :
    retrieveScan (fun q : ℚ => q) [(1 : ℚ), 0] [docA, docB] = (some docA, JSNum.fin 1) ∧
    (JSNum.fin 1 = cosineSimilarity (fun q : ℚ => q) [(1 : ℚ), 0] docA.embedding ∧
     (JSNum.fin 1 : JSNum) ≠ JSNum.nan ∧
     (∀ d ∈ [docA, docB],
        jsGt (cosineSimilarity (fun q : ℚ => q) [(1 : ℚ), 0] d.embedding) (JSNum.fin 1)
          = false) ∧
     ∃ l1 l2, [docA, docB] = l1 ++ docA :: l2 ∧
       ∀ d ∈ l1, cosineSimilarity (fun q : ℚ => q) [(1 : ℚ), 0] d.embedding = JSNum.nan ∨
         jsGt (JSNum.fin 1) (cosineSimilarity (fun q : ℚ => q) [(1 : ℚ), 0] d.embedding)
           = true) := by
  have hscan : retrieveScan (fun q : ℚ => q) [(1 : ℚ), 0] [docA, docB]
      = (some docA, JSNum.fin 1) := by
    norm_num [retrieveScan, nearestScan, scanStep, cosineSimilarity, dotProduct,
      magnitude, sumSquares, docA, docB]
  exact ⟨hscan, c1_retrieval_selects_highest (fun q : ℚ => q) [(1 : ℚ), 0]
    [docA, docB] docA (JSNum.fin 1) hscan⟩

/-- C2: the /query handler of src/query.js answers the no-match response,
never an error and never a fabricated match, whenever every similarity is
NaN, and in particular over the empty store; but the earlier handler of
src/unnamed/part_000 reads bestMatch.documentName on a null bestMatch
when the store is empty, so the thrown TypeError reaches its catch block
and the caller receives the 500 error response instead of a no-match
result. -/
theorem c2_empty_store_no_match (sqrt : ℚ → ℚ) (queryEmbedding : List ℚ)
    (docs : List Embedding) (generate : Except Unit String)
    (hnan : ∀ d ∈ docs, cosineSimilarity sqrt queryEmbedding d.embedding = JSNum.nan) :
    queryHandler sqrt queryEmbedding docs generate = QueryResponse.noMatch JSNum.negInf ∧
    queryHandlerV0 sqrt queryEmbedding [] = QueryResponseV0.serverError := by
  constructor
  · have hfold := scan_no_winner
      (fun doc => cosineSimilarity sqrt queryEmbedding doc.embedding)
      docs (none, JSNum.negInf)
      (by
        intro d hd
        show jsGt (cosineSimilarity sqrt queryEmbedding d.embedding) JSNum.negInf = false
        rw [hnan d hd]
        simp)
    have hscan : retrieveScan sqrt queryEmbedding docs = (none, JSNum.negInf) := hfold
    simp [queryHandler, hscan]
  · rfl

/-- Witness for c2_empty_store_no_match on a one-record store whose only
record has the zero embedding, making its similarity NaN. -/
theorem c2_empty_store_no_match_witness :
    (∀ d ∈ [zeroDoc],
      cosineSimilarity (fun q : ℚ => q) [(1 : ℚ), 0] d.embedding = JSNum.nan) ∧
    (queryHandler (fun q : ℚ => q) [(1 : ℚ), 0] [zeroDoc] (Except.ok "answer")
        = QueryResponse.noMatch JSNum.negInf ∧
      queryHandlerV0 (fun q : ℚ => q) [(1 : ℚ), 0] [] = QueryResponseV0.serverError) := by
  have hnan : ∀ d ∈ [zeroDoc],
      cosineSimilarity (fun q : ℚ => q) [(1 : ℚ), 0] d.embedding = JSNum.nan := by
    intro d hd
    simp only [List.mem_singleton] at hd
    subst hd
    norm_num [cosineSimilarity, dotProduct, magnitude, sumSquares, zeroDoc]
  exact ⟨hnan, c2_empty_store_no_match (fun q : ℚ => q) [(1 : ℚ), 0] [zeroDoc]
    (Except.ok "answer") hnan⟩

/-- C5: a record whose cosine similarity against the query embedding is
NaN is never the record selected by the /query scan of src/query.js, and
a zero Euclidean norm on either side, with matching dimensions, makes the
computed similarity NaN because the denominator is exactly zero. -/
theorem c5_nan_similarity_never_selected (sqrt : ℚ → ℚ) (queryEmbedding : List ℚ)
    (docs : List Embedding) (r : Embedding) (s : JSNum)
    (hsqrt : sqrt 0 = 0)
    (hscan : retrieveScan sqrt queryEmbedding docs = (some r, s)) :
    cosineSimilarity sqrt queryEmbedding r.embedding ≠ JSNum.nan ∧
    (∀ d ∈ docs, cosineSimilarity sqrt queryEmbedding d.embedding = JSNum.nan → d ≠ r) ∧
    (∀ d ∈ docs, d.embedding.length = queryEmbedding.length →
      sumSquares queryEmbedding = 0 ∨ sumSquares d.embedding = 0 →
      cosineSimilarity sqrt queryEmbedding d.embedding = JSNum.nan) := by
  have hspec := scan_foldl_spec
    (fun doc => cosineSimilarity sqrt queryEmbedding doc.embedding)
    docs none JSNum.negInf (by simp) r s hscan
  have hrnan : cosineSimilarity sqrt queryEmbedding r.embedding ≠ JSNum.nan := by
    rcases hspec with ⟨hb, _, _⟩ | ⟨_, hgt, _, _⟩
    · simp at hb
    · exact jsGt_ne_nan_left hgt
  refine ⟨hrnan, ?_, ?_⟩
  · intro d _ hdnan heq
    rw [heq] at hdnan
    exact hrnan hdnan
  · intro d _ hlen hz
    exact cosineSimilarity_zero_norm sqrt queryEmbedding d.embedding hsqrt hlen.symm hz

/-- Witness for c5_nan_similarity_never_selected: the zero-embedding
record is scanned first, its similarity is NaN, and the scan selects the
other record. -/
theorem c5_nan_similarity_never_selected_witness :
    ((fun q : ℚ => q) 0 = 0) ∧
    retrieveScan (fun q : ℚ => q) [(1 : ℚ), 0] [zeroDoc, docA]
      = (some docA, JSNum.fin 1) ∧
    (cosineSimilarity (fun q : ℚ => q) [(1 : ℚ), 0] docA.embedding ≠ JSNum.nan ∧
     (∀ d ∈ [zeroDoc, docA],
        cosineSimilarity (fun q : ℚ => q) [(1 : ℚ), 0] d.embedding = JSNum.nan →
        d ≠ docA) ∧
     (∀ d ∈ [zeroDoc, docA], d.embedding.length = ([(1 : ℚ), 0] : List ℚ).length →
        sumSquares [(1 : ℚ), 0] = 0 ∨ sumSquares d.embedding = 0 →
        cosineSimilarity (fun q : ℚ => q) [(1 : ℚ), 0] d.embedding = JSNum.nan)) := by
  have hscan : retrieveScan (fun q : ℚ => q) [(1 : ℚ), 0] [zeroDoc, docA]
      = (some docA, JSNum.fin 1) := by
    norm_num [retrieveScan, nearestScan, scanStep, cosineSimilarity, dotProduct,
      magnitude, sumSquares, zeroDoc, docA]
  exact ⟨rfl, hscan, c5_nan_similarity_never_selected (fun q : ℚ => q) [(1 : ℚ), 0]
    [zeroDoc, docA] docA (JSNum.fin 1) rfl hscan⟩

/-- C10: when the /query scan of src/query.js selects no record, the
response still carries the similarity field, and its value is negative
infinity, the starting value of the best-score tracker. -/
theorem c10_no_match_carries_negative_infinity (sqrt : ℚ → ℚ)
    (queryEmbedding : List ℚ) (docs : List Embedding) (generate : Except Unit String)
    (hnone : (retrieveScan sqrt queryEmbedding docs).1 = none) :
    queryHandler sqrt queryEmbedding docs generate
      = QueryResponse.noMatch JSNum.negInf := by
  have hfold := scan_foldl_none
    (fun doc => cosineSimilarity sqrt queryEmbedding doc.embedding)
    docs JSNum.negInf hnone
  have hscan : retrieveScan sqrt queryEmbedding docs = (none, JSNum.negInf) := hfold
  simp [queryHandler, hscan]

/-- Witness for c10_no_match_carries_negative_infinity over the empty
store. -/
theorem c10_no_match_carries_negative_infinity_witness :
    ((retrieveScan (fun q : ℚ => q) [(1 : ℚ)] []).1 = none) ∧
    queryHandler (fun q : ℚ => q) [(1 : ℚ)] [] (Except.ok "answer")
      = QueryResponse.noMatch JSNum.negInf :=
  ⟨rfl, c10_no_match_carries_negative_infinity (fun q : ℚ => q) [(1 : ℚ)] []
    (Except.ok "answer") rfl⟩

/-- C3 counterexample: cosineSimilarity in src/query.js performs no length
check: on the mismatched pair below it returns the finite numeric value
one half, computed by pairing the single entry of the first vector with
the first entry of the second, so it does not fail and does not refuse to
return a value. -/
theorem c3_counterexample :
    ([(1 : ℚ)] : List ℚ).length ≠ ([(1 : ℚ), 1] : List ℚ).length ∧
    cosineSimilarity (fun q : ℚ => q) [(1 : ℚ)] [(1 : ℚ), 1] = JSNum.fin (1 / 2) := by
  constructor
  · decide
  · norm_num [cosineSimilarity, dotProduct, magnitude, sumSquares]

/-- C3 amended: for mismatched lengths cosineSimilarity never signals an
error: the dot product reads only the first len(vecA) entries of vecB, so
a longer vecB is silently truncated in the numerator, while both norms
still use every entry of their own vector, and the result is an ordinary
numeric value; when vecA is the longer one, the out-of-range reads of
vecB make the dot product, and hence the result, NaN. -/
theorem c3_mismatch_never_fails (sqrt : ℚ → ℚ) (vecA vecB : List ℚ) :
    dotProduct vecA vecB = dotProduct vecA (vecB.take vecA.length) ∧
    (vecA.length ≤ vecB.length → dotProduct vecA vecB = JSNum.fin (dotQ vecA vecB)) ∧
    (vecB.length < vecA.length → cosineSimilarity sqrt vecA vecB = JSNum.nan) := by
  refine ⟨dotProduct_take vecA vecB, fun h => dotProduct_eq_dotQ vecA vecB h, fun h => ?_⟩
  simp only [cosineSimilarity]
  rw [dotProduct_nan vecA vecB h]
  simp

/-- Witness for c3_mismatch_never_fails: a shorter first vector yields the
finite truncated dot product, a longer first vector yields NaN. -/
theorem c3_mismatch_never_fails_witness :
    (([(1 : ℚ), 2] : List ℚ).length ≤ ([(3 : ℚ), 4] : List ℚ).length ∧
      dotProduct [(1 : ℚ), 2] [(3 : ℚ), 4]
        = JSNum.fin (dotQ [(1 : ℚ), 2] [(3 : ℚ), 4])) ∧
    (([(5 : ℚ)] : List ℚ).length < ([(1 : ℚ), 2] : List ℚ).length ∧
      cosineSimilarity (fun q : ℚ => q) [(1 : ℚ), 2] [(5 : ℚ)] = JSNum.nan) :=
  ⟨⟨by decide,
    (c3_mismatch_never_fails (fun q : ℚ => q) [(1 : ℚ), 2] [(3 : ℚ), 4]).2.1 (by decide)⟩,
   ⟨by decide,
    (c3_mismatch_never_fails (fun q : ℚ => q) [(1 : ℚ), 2] [(5 : ℚ)]).2.2 (by decide)⟩⟩

/-- C4: the code of src/query.js contradicts this claim: with one stored
record that matches the query perfectly, a failing generation call makes
the handler answer the 500 error response, discarding the match and the
score it had already computed, instead of returning them with the answer
field absent. -/
theorem c4_generation_failure_fails_request :
    retrieveScan (fun q : ℚ => q) [(1 : ℚ), 0] [docA] = (some docA, JSNum.fin 1) ∧
    queryHandler (fun q : ℚ => q) [(1 : ℚ), 0] [docA] (Except.error ())
      = QueryResponse.serverError := by
  have hscan : retrieveScan (fun q : ℚ => q) [(1 : ℚ), 0] [docA]
      = (some docA, JSNum.fin 1) := by
    norm_num [retrieveScan, nearestScan, scanStep, cosineSimilarity, dotProduct,
      magnitude, sumSquares, docA]
  exact ⟨hscan, by simp [queryHandler, hscan]⟩

/-- C6: in the /upload handler of src/query.js, a failing embedding call
reaches the catch block before the save on line 103 ever runs: the
response is the processing-error response and the stored collection is
returned unchanged, with no record appended. -/
theorem c6_embedding_failure_persists_nothing (documentName content : String)
    (store : List Embedding) :
    uploadHandler documentName content (Except.error ()) store
      = (UploadResponse.errorProcessing, store) := rfl

/-- C7 counterexample: the store of src/query.js enforces no dimension
invariant: inserting a one-entry embedding into a store whose only record
has a two-entry embedding succeeds and persists the mismatched record, so
the mismatch is not rejected at write time. -/
theorem c7_counterexample :
    uploadHandler "b" "y" (Except.ok [[(3 : ℚ)]]) [⟨"a", [(1 : ℚ), 2], "x"⟩]
      = (UploadResponse.saved,
          [⟨"a", [(1 : ℚ), 2], "x"⟩, ⟨"b", [(3 : ℚ)], "y"⟩]) ∧
    (Embedding.mk "a" [(1 : ℚ), 2] "x").embedding.length
      ≠ (Embedding.mk "b" [(3 : ℚ)] "y").embedding.length := by
  constructor
  · rfl
  · decide

/-- C7 amended: an insert through the /upload path of src/query.js is
never rejected for its embedding length: whatever the length of the first
returned embedding vector, the record is appended to the store and the
response is the success acknowledgement. -/
theorem c7_insert_accepts_any_length (documentName content : String)
    (e : List ℚ) (rest : List (List ℚ)) (store : List Embedding) :
    uploadHandler documentName content (Except.ok (e :: rest)) store
      = (UploadResponse.saved, store ++ [⟨documentName, e, content⟩]) := rfl

/-- C8 counterexample: uploading twice under the same document name does
not overwrite: a mongoose save of a new model instance always inserts a
new document, so after the second upload both records named a are in the
store and the first record is still present and retrievable, against
overwrite-on-conflict. -/
theorem c8_counterexample :
    (uploadHandler "a" "c2" (Except.ok [[(2 : ℚ)]])
        ((uploadHandler "a" "c1" (Except.ok [[(1 : ℚ)]]) []).2)).2
      = [⟨"a", [(1 : ℚ)], "c1"⟩, ⟨"a", [(2 : ℚ)], "c2"⟩] ∧
    (⟨"a", [(1 : ℚ)], "c1"⟩ : Embedding) ∈
      (uploadHandler "a" "c2" (Except.ok [[(2 : ℚ)]])
        ((uploadHandler "a" "c1" (Except.ok [[(1 : ℚ)]]) []).2)).2 := by
  constructor
  · rfl
  · decide

/-- C8 amended: the insert of the /upload path is an unconditional append:
a record whose documentName already exists is stored alongside the
previous record, every previously stored record remains in the collection
seen by later scans, and no duplicate-id failure and no overwrite
occurs. -/
theorem c8_insert_appends_keeps_previous (documentName content : String)
    (e : List ℚ) (rest : List (List ℚ)) (store : List Embedding) :
    (uploadHandler documentName content (Except.ok (e :: rest)) store).2
      = store ++ [⟨documentName, e, content⟩] ∧
    store ⊆ (uploadHandler documentName content (Except.ok (e :: rest)) store).2 := by
  refine ⟨rfl, ?_⟩
  intro x hx
  simp only [uploadHandler, List.headD_cons, List.mem_append, List.mem_singleton]
  exact Or.inl hx

/-- Witness for c8_insert_appends_keeps_previous at a concrete store
already holding a record with the same document name. -/
theorem c8_insert_appends_keeps_previous_witness :
    (uploadHandler "a" "c2" (Except.ok [[(2 : ℚ)]]) [⟨"a", [(1 : ℚ)], "c1"⟩]).2
      = [⟨"a", [(1 : ℚ)], "c1"⟩] ++ [⟨"a", [(2 : ℚ)], "c2"⟩] ∧
    [(⟨"a", [(1 : ℚ)], "c1"⟩ : Embedding)] ⊆
      (uploadHandler "a" "c2" (Except.ok [[(2 : ℚ)]]) [⟨"a", [(1 : ℚ)], "c1"⟩]).2 :=
  c8_insert_appends_keeps_previous "a" "c2" [(2 : ℚ)] [] [⟨"a", [(1 : ℚ)], "c1"⟩]

/-- C9: cosineSimilarity of src/query.js is symmetric on equal-length
vectors: the dot product pairs entries positionally and rational
multiplication commutes, and the denominator is the same two magnitudes
multiplied in the opposite order. -/
theorem c9_cosine_symmetry (sqrt : ℚ → ℚ) (a b : List ℚ)
    (h : a.length = b.length) :
    cosineSimilarity sqrt a b = cosineSimilarity sqrt b a := by
  simp only [cosineSimilarity]
  rw [dotProduct_eq_dotQ a b h.le, dotProduct_eq_dotQ b a h.ge, dotQ_comm,
    jsMul_fin, jsMul_fin, mul_comm]

/-- Witness for c9_cosine_symmetry on a concrete equal-length pair. -/
theorem c9_cosine_symmetry_witness :
    (([(1 : ℚ), 2] : List ℚ).length = ([(3 : ℚ), 4] : List ℚ).length) ∧
    cosineSimilarity (fun q : ℚ => q) [(1 : ℚ), 2] [(3 : ℚ), 4]
      = cosineSimilarity (fun q : ℚ => q) [(3 : ℚ), 4] [(1 : ℚ), 2] :=
  ⟨rfl, c9_cosine_symmetry (fun q : ℚ => q) [(1 : ℚ), 2] [(3 : ℚ), 4] rfl⟩

end VectorSearch
